import Mathlib

/-!
# View routing of the terminal menu (`main.go`)

A shallow embedding of the menu screen of `main.go` and of the two process-wide
variables `current` and `models` it routes with.

* The two globals are passed explicitly (`Globals`); a function that assigns to
  them returns the new globals next to its Go results (`Result`).
* A slice lookup `models[current]` that would be out of range (a Go run-time
  failure that stops the program) is `none`.
* `tea.Model` values are the constructors of `Screen`, one per concrete type the
  program puts into the roster.
* The `bubbles` list component is an external dependency.  Its state is the record
  `list.Model` of the fields the program reads and writes through the component's
  accessors; its own `Update` method is not part of the program and is taken as
  a parameter `lu` by everything that calls it.
* The Timer, About and SubList screens live in files of the package that are not
  part of the sources at hand; they are modelled from the specification.
-/

namespace BubbleTeaMenu

/-! ## Messages, key bindings and commands -/

/-- The messages the host delivers.  A `tea.KeyMsg` is identified by the text its
`String()` method yields, which is all `key.Matches` looks at. -/
inductive Msg where
  | WindowSizeMsg (Width Height : Int)
  | KeyMsg (key : String)
  | other (tag : Nat)
  deriving DecidableEq, Repr

/-- A `key.Binding`: the keys it reacts to, its help entry, and the disabled flag. -/
structure Binding where
  keys : List String
  help : String × String
  disabled : Bool
  deriving DecidableEq, Repr

/-- The zero value `key.Binding{}`. -/
def Binding.zero : Binding := ⟨[], ("", ""), false⟩

/-- Go `key.NewBinding(key.WithKeys(k), key.WithHelp(h, d))`. -/
def NewBinding (k h d : String) : Binding := ⟨[k], (h, d), false⟩

/-- Go `Binding.Enabled`: not disabled and the key slice is not nil. -/
def Binding.Enabled (b : Binding) : Bool := !b.disabled && !b.keys.isEmpty

/-- Go `key.Matches(msg, b)` for a single binding: some key of the binding equals
the text of the key message and the binding is enabled. -/
def Matches (k : String) (b : Binding) : Bool :=
  b.keys.any (fun v => decide (k = v) && b.Enabled)

/-- A command value as a component hands it out: Go `nil`, the spinner's tick, the
timer that clears a status message, the Timer screen's first tick, or any other
command of the list component (told apart by a tag). -/
inductive Effect where
  | nil
  | spinnerTick
  | statusTimeout
  | timerTick
  | lib (tag : Nat)
  deriving DecidableEq, Repr

/-- The `tea.Cmd` a screen's method returns: a component's command as it is, or
`tea.Batch` applied to a slice of commands. -/
inductive Cmd where
  | plain (e : Effect)
  | Batch (cmds : List Effect)
  deriving DecidableEq, Repr

/-! ## Menu entries and key maps -/

structure item where
  title : String
  description : String
  deriving DecidableEq, Repr

def item.Title (i : item) : String := i.title
def item.Description (i : item) : String := i.description
def item.FilterValue (i : item) : String := i.title

structure delegateKeyMap where
  choose : Binding
  remove : Binding
  deriving DecidableEq, Repr

structure listKeyMap where
  toggleSpinner : Binding
  toggleTitleBar : Binding
  toggleStatusBar : Binding
  togglePagination : Binding
  toggleHelpMenu : Binding
  launchItem : Binding
  deriving DecidableEq, Repr

/-- Go `newDelegateKeyMap`: only `choose` is set, `remove` stays the zero binding. -/
def newDelegateKeyMap : delegateKeyMap :=
  ⟨NewBinding "enter" "enter (a)" "choose", Binding.zero⟩

def newListKeyMap : listKeyMap :=
  ⟨NewBinding "s" "s" "toggle spinner",
   NewBinding "T" "T" "toggle title",
   NewBinding "S" "S" "toggle status",
   NewBinding "P" "P" "toggle pagination",
   NewBinding "H" "H" "toggle help",
   NewBinding "a" "a" "launch item"⟩

/-- The `list.DefaultDelegate` built by `newItemDelegate`.  Its `UpdateFunc` is a
closure over `keys`; the closure is represented by what it captures, and its body
is `DefaultDelegate.Update` below. -/
structure DefaultDelegate where
  keys : delegateKeyMap
  help : List Binding
  deriving DecidableEq, Repr

/-! ## The list component (external dependency) -/

inductive list.FilterState where
  | Unfiltered
  | Filtering
  | FilterApplied
  deriving DecidableEq, Repr

/-- State of a `list.Model` of the `bubbles` library, as far as the program
observes it through the component's accessors.  `index` is what `Index()` yields:
the position of the cursor among the visible entries. -/
structure list.Model where
  Title : String
  items : List item
  filteredItems : List item
  filterState : list.FilterState
  filteringEnabled : Bool
  showTitle : Bool
  showFilter : Bool
  showStatusBar : Bool
  showPagination : Bool
  showHelp : Bool
  showSpinner : Bool
  width : Int
  height : Int
  index : Nat
  statusMessage : String
  delegate : DefaultDelegate
  deriving DecidableEq, Repr

namespace list.Model

/-- Library `list.New(items, delegate, width, height)`: every display option on,
filtering enabled, no filter, cursor on the first entry, title "List". -/
def New (items : List item) (delegate : DefaultDelegate) (width height : Int) : list.Model :=
  { Title := "List", items := items, filteredItems := [], filterState := .Unfiltered,
    filteringEnabled := true, showTitle := true, showFilter := true, showStatusBar := true,
    showPagination := true, showHelp := true, showSpinner := false,
    width := width, height := height, index := 0, statusMessage := "", delegate := delegate }

def FilterState (m : list.Model) : list.FilterState := m.filterState
def Index (m : list.Model) : Nat := m.index
def FilteringEnabled (m : list.Model) : Bool := m.filteringEnabled
def ShowTitle (m : list.Model) : Bool := m.showTitle
def ShowStatusBar (m : list.Model) : Bool := m.showStatusBar
def ShowPagination (m : list.Model) : Bool := m.showPagination
def ShowHelp (m : list.Model) : Bool := m.showHelp
def Items (m : list.Model) : List item := m.items

/-- Library `VisibleItems`: the filtered entries whenever a filter is being typed
or is applied, all entries otherwise. -/
def VisibleItems (m : list.Model) : List item :=
  if m.filterState = .Unfiltered then m.items else m.filteredItems

/-- Library `SelectedItem`: the visible entry under the cursor, if there is one. -/
def SelectedItem (m : list.Model) : Option item := m.VisibleItems[m.Index]?

def SetSize (m : list.Model) (width height : Int) : list.Model :=
  { m with width := width, height := height }

def SetShowTitle (m : list.Model) (v : Bool) : list.Model := { m with showTitle := v }
def SetShowFilter (m : list.Model) (v : Bool) : list.Model := { m with showFilter := v }
def SetShowStatusBar (m : list.Model) (v : Bool) : list.Model := { m with showStatusBar := v }
def SetShowPagination (m : list.Model) (v : Bool) : list.Model := { m with showPagination := v }
def SetShowHelp (m : list.Model) (v : Bool) : list.Model := { m with showHelp := v }

/-- Library `resetFiltering`: back to the unfiltered list, dropping the matches. -/
def resetFiltering (m : list.Model) : list.Model :=
  if m.filterState = .Unfiltered then m
  else { m with filterState := .Unfiltered, filteredItems := [] }

/-- Library `SetFilteringEnabled`: stores the flag and, when filtering is switched
off, resets the filter. -/
def SetFilteringEnabled (m : list.Model) (v : Bool) : list.Model :=
  let m := { m with filteringEnabled := v }
  if !v then m.resetFiltering else m

/-- Library `ToggleSpinner`: starts the spinner (returning its tick command) when
it is off, stops it (returning nil) when it is on. -/
def ToggleSpinner (m : list.Model) : list.Model × Effect :=
  if !m.showSpinner then ({ m with showSpinner := true }, .spinnerTick)
  else ({ m with showSpinner := false }, .nil)

/-- Library `NewStatusMessage`: shows the text and returns the command that will
clear it. -/
def NewStatusMessage (m : list.Model) (s : String) : list.Model × Effect :=
  ({ m with statusMessage := s }, .statusTimeout)

end list.Model

/-- The rendering function `statusMessageStyle`; the colour is not modelled, the
arguments are joined with a blank as `lipgloss` does. -/
def statusMessageStyle (strs : List String) : String := " ".intercalate strs

/-- Go `newItemDelegate`: the default delegate with the update closure over `keys`
and the two help entries. -/
def newItemDelegate (keys : delegateKeyMap) : DefaultDelegate :=
  ⟨keys, [keys.choose, keys.remove]⟩

/-- Body of the `UpdateFunc` closure of `newItemDelegate`. -/
def DefaultDelegate.Update (d : DefaultDelegate) (msg : Msg) (m : list.Model) :
    list.Model × Effect :=
  match m.SelectedItem with
  | none => (m, .nil)
  | some localItem =>
    match msg with
    | .KeyMsg k =>
      if Matches k d.keys.choose then
        m.NewStatusMessage (statusMessageStyle ["You chose ", localItem.title])
      else (m, .nil)
    | _ => (m, .nil)

/-- The type of the list component's own update step `list.Model.Update`, which the
program calls but does not define. -/
abbrev ListUpdate := Msg → list.Model → list.Model × Effect

/-- A small stand-in for the list component's update step, used to evaluate
concrete examples only: while browsing, the down and up keys move the cursor
within the visible entries, then the delegate's update runs.  The general theorems
quantify over every update step instead. -/
def browseUpdate : ListUpdate := fun msg m =>
  match msg with
  | .KeyMsg k =>
    if m.filterState = .Filtering then (m, .nil)
    else
      let m1 : list.Model :=
        if k = "down" ∨ k = "j" then
          (if m.index + 1 < m.VisibleItems.length then { m with index := m.index + 1 } else m)
        else if k = "up" ∨ k = "k" then { m with index := m.index - 1 }
        else m
      m1.delegate.Update msg m1
  | _ => m.delegate.Update msg m

/-! ## Screens and the roster -/

/-- Go `type sessionState int`, the tag of a screen.  The program only ever stores
the four constants below in a variable of this type. -/
abbrev sessionState := Nat

def mainModel : sessionState := 0
def timerModel : sessionState := 1
def aboutModel : sessionState := 2
def simpleListModel : sessionState := 3

/-- The menu screen.  The Go struct has two more fields, `keyMap` and `styles`,
which no code path of the file sets or reads on the way through `Update`. -/
structure model where
  list : list.Model
  keys : listKeyMap
  delegateKeys : delegateKeyMap
  deriving DecidableEq, Repr

/-- Go `time.Duration`, in nanoseconds. -/
abbrev Duration := Nat

def time.Second : Duration := 1000000000
def time.Minute : Duration := 60 * time.Second

/-- Modelled from the spec: the state of the Timer screen, whose type is declared
in a file that is not at hand.  It holds the configured duration and the remaining
duration. -/
structure TimerModel where
  timeout : Duration
  remaining : Duration
  deriving DecidableEq, Repr

/-- Modelled from the spec: the constructor `NewTimer`, defined in a file that is
not at hand.  A new timer has its whole configured duration remaining. -/
def NewTimer (d : Duration) : TimerModel := ⟨d, d⟩

/-- Modelled from the spec: one periodic tick of the Timer screen, decrementing the
remaining duration by the granularity `g`, floored at zero. -/
def TimerModel.tick (t : TimerModel) (g : Duration) : TimerModel :=
  { t with remaining := t.remaining - g }

/-- Modelled from the spec: the static About screen, written `about{}` by
`initMenu`; its type is declared in a file that is not at hand and it has no
internal state. -/
structure about where
  deriving DecidableEq, Repr

/-- Modelled from the spec: the SubList screen, a selectable list with a cursor
index and a filter-mode flag; its type is declared in a file that is not at hand.
`initMenu` writes `listitemmodel{}`, the zero value: cursor on index 0, not
filtering. -/
structure listitemmodel where
  cursor : Nat := 0
  filtering : Bool := false
  deriving DecidableEq, Repr

/-- A `tea.Model` value that can stand in the roster: one constructor per concrete
screen type. -/
inductive Screen where
  | menu (m : model)
  | timer (t : TimerModel)
  | about (a : about)
  | sublist (s : listitemmodel)
  deriving DecidableEq, Repr

/-- The two package-level variables `current` and `models`. -/
structure Globals where
  current : sessionState
  models : List Screen
  deriving DecidableEq, Repr

/-- What a function returning `(tea.Model, tea.Cmd)` leaves behind: the globals
after the call and the two results. -/
structure Result where
  g : Globals
  screen : Screen
  cmd : Cmd
  deriving DecidableEq, Repr

/-- Go `func (m model) Init() tea.Cmd`: always nil. -/
def model.Init (_m : model) : Cmd := .plain .nil

/-- Modelled from the spec: the initializer of the Timer screen schedules the
first tick. -/
def TimerModel.Init (_t : TimerModel) : Cmd := .plain .timerTick

/-- Modelled from the spec: the static screen has nothing to start. -/
def about.Init (_a : about) : Cmd := .plain .nil

/-- Modelled from the spec: the SubList screen has nothing to start. -/
def listitemmodel.Init (_s : listitemmodel) : Cmd := .plain .nil

/-- The interface call `models[current].Init()`, dispatched on the concrete type. -/
def Screen.Init : Screen → Cmd
  | .menu m => m.Init
  | .timer t => t.Init
  | .about a => a.Init
  | .sublist s => s.Init

/-- The five menu entries of `initMenu`, in construction order. -/
def menuItems : List item :=
  [⟨"Item 1", "Descrpiption item 1"⟩,
   ⟨"Item 2", "Description item 2"⟩,
   ⟨"Item 3", "Description item 3"⟩,
   ⟨"Item 4", "Description item 4"⟩,
   ⟨"About", "Contact for Help/Support"⟩]

/-- Go `initMenu`: builds the menu and the three other screens and returns the
roster it assigns to `models` (the previous value of `models` is not read).  The
title style and the additional help keys it sets on the list only affect rendering
and are not part of the list record. -/
def initMenu : List Screen :=
  let delegateKeys := newDelegateKeyMap
  let listKeys := newListKeyMap
  let items := menuItems
  let delegate := newItemDelegate delegateKeys
  let automataMenuItems := list.Model.New items delegate 0 0
  let automataMenuItems := { automataMenuItems with Title := "Automata" }
  let mainModel : model :=
    { list := automataMenuItems, keys := listKeys, delegateKeys := delegateKeys }
  let aboutModel : about := {}
  let simpleListModel : listitemmodel := {}
  let models : List Screen := []
  let models := models ++ [Screen.menu mainModel]
  let models := models ++ [Screen.timer (NewTimer time.Minute)]
  let models := models ++ [Screen.about aboutModel]
  let models := models ++ [Screen.sublist simpleListModel]
  models

/-- The statement pair `current = target; return models[current], models[current].Init()`
that `MainModel` and each launch branch of `Update` consist of.  An index out of
the roster's range stops the program (`none`). -/
def switchTo (g : Globals) (target : sessionState) : Option Result :=
  let g : Globals := { g with current := target }
  match g.models[g.current]? with
  | some s => some ⟨g, s, s.Init⟩
  | none => none

/-- Go `MainModel`: rebuild the roster, make the menu current, return it. -/
def MainModel (g : Globals) : Option Result :=
  let g : Globals := { g with models := initMenu }
  switchTo g mainModel

/-- A `lipgloss.Style` as far as `GetFrameSize` depends on it: the vertical and the
horizontal padding of `Padding(v, h)`. -/
structure Style where
  padV : Int
  padH : Int
  deriving DecidableEq, Repr

def appStyle : Style := ⟨1, 2⟩

/-- Library `GetFrameSize`: the horizontal and the vertical frame size. -/
def Style.GetFrameSize (s : Style) : Int × Int := (2 * s.padH, 2 * s.padV)

/-- The last four lines of `Update`: hand the message to the list's own update,
keep the new list in the receiver, and return the receiver with the batched
command.  The globals are not touched. -/
def model.forward (lu : ListUpdate) (g : Globals) (m : model) (msg : Msg) : Option Result :=
  let r := lu msg m.list
  let newListModel := r.1
  let cmd := r.2
  let m : model := { m with list := newListModel }
  let cmds : List Effect := [] ++ [cmd]
  some ⟨g, .menu m, .Batch cmds⟩

/-- Go `func (m model) Update(msg tea.Msg) (tea.Model, tea.Cmd)`. -/
def model.Update (lu : ListUpdate) (g : Globals) (m : model) (msg : Msg) : Option Result :=
  match msg with
  | .WindowSizeMsg Width Height =>
    let h := appStyle.GetFrameSize.1
    let v := appStyle.GetFrameSize.2
    let m : model := { m with list := m.list.SetSize (Width - h) (Height - v) }
    m.forward lu g msg
  | .KeyMsg k =>
    if m.list.FilterState = .Filtering then m.forward lu g msg
    else if Matches k m.keys.toggleSpinner then
      let r := m.list.ToggleSpinner
      let cmd := r.2
      some ⟨g, .menu { m with list := r.1 }, .plain cmd⟩
    else if Matches k m.keys.toggleTitleBar then
      let v := !m.list.ShowTitle
      let l := m.list.SetShowTitle v
      let l := l.SetShowFilter v
      let l := l.SetFilteringEnabled v
      some ⟨g, .menu { m with list := l }, .plain .nil⟩
    else if Matches k m.keys.toggleStatusBar then
      some ⟨g, .menu { m with list := m.list.SetShowStatusBar (!m.list.ShowStatusBar) },
        .plain .nil⟩
    else if Matches k m.keys.togglePagination then
      some ⟨g, .menu { m with list := m.list.SetShowPagination (!m.list.ShowPagination) },
        .plain .nil⟩
    else if Matches k m.keys.toggleHelpMenu then
      some ⟨g, .menu { m with list := m.list.SetShowHelp (!m.list.ShowHelp) }, .plain .nil⟩
    else if Matches k m.keys.launchItem then
      let currentIndex := m.list.Index
      if currentIndex = 1 then switchTo g timerModel
      else if currentIndex = 4 then switchTo g aboutModel
      else if currentIndex = 0 then switchTo g simpleListModel
      else m.forward lu g msg
    else m.forward lu g msg
  | .other _ => m.forward lu g msg

/-! ## The running program -/

/-- The host's view of the program: the globals and the screen value the event loop
currently holds and renders. -/
structure Prog where
  g : Globals
  active : Screen
  deriving DecidableEq, Repr

/-- Go `main`, up to the start of the event loop: `current` has its initial value
`mainModel`, the roster is built, and the program is created on `models[current]`. -/
def main : Option Prog :=
  let g : Globals := ⟨mainModel, initMenu⟩
  match g.models[g.current]? with
  | some s => some ⟨g, s⟩
  | none => none

/-- Modelled from the spec: what the update step of a screen other than the menu
returns.  Either its own next state with an effect, which the router then stores as
the new instance of the active identity, or the navigation intent back to the menu
that the explicit return input produces, which the router serves through
`MainModel`. -/
inductive SubOutcome (σ : Type) where
  | stay (s : σ) (c : Cmd)
  | back

/-- Modelled from the spec: the update steps of the three screens whose code is not
at hand, each an arbitrary function of the shape above. -/
structure SubScreens where
  timer : TimerModel → Msg → SubOutcome TimerModel
  about : about → Msg → SubOutcome about
  sublist : listitemmodel → Msg → SubOutcome listitemmodel

/-- Modelled from the spec: a concrete choice of the three update steps for
examples.  Message `other 0` is the one-second tick of the Timer, the down key moves
the SubList's cursor, the key `esc` is the return input; everything else is
ignored. -/
def specScreens : SubScreens where
  timer := fun t msg =>
    if msg = .KeyMsg "esc" then .back
    else if msg = .other 0 then .stay (t.tick time.Second) (.plain .timerTick)
    else .stay t (.plain .nil)
  about := fun a msg => if msg = .KeyMsg "esc" then .back else .stay a (.plain .nil)
  sublist := fun s msg =>
    if msg = .KeyMsg "esc" then .back
    else if msg = .KeyMsg "down" then .stay ⟨s.cursor + 1, s.filtering⟩ (.plain .nil)
    else .stay s (.plain .nil)

/-- Modelled from the spec: the router stores the screen value a step returned as
the new instance of the active identity, the assignment `models[current] = s`.  An
index out of the roster's range stops the program (`none`). -/
def storeActive (g : Globals) (s : Screen) : Option Globals :=
  if g.current < g.models.length then
    some { g with models := g.models.set g.current s }
  else none

/-- One turn of the event loop: the message goes to the update step of the screen
the loop holds, and the screen that step returns is held from then on.  The menu's
step is `model.Update`, which stores nothing itself; the step of another screen is
modelled from the spec: its new state is stored in the roster under the active
identity, and its return input runs `MainModel`. -/
def Prog.step (lu : ListUpdate) (sub : SubScreens) (p : Prog) (msg : Msg) : Option Prog :=
  let back : Option Prog := (MainModel p.g).map (fun r => ⟨r.g, r.screen⟩)
  let keep : Screen → Option Prog := fun s => (storeActive p.g s).map (fun g => ⟨g, s⟩)
  match p.active with
  | .menu m => (m.Update lu p.g msg).map (fun r => ⟨r.g, r.screen⟩)
  | .timer t =>
    match sub.timer t msg with
    | .stay t1 _ => keep (.timer t1)
    | .back => back
  | .about a =>
    match sub.about a msg with
    | .stay a1 _ => keep (.about a1)
    | .back => back
  | .sublist s =>
    match sub.sublist s msg with
    | .stay s1 _ => keep (.sublist s1)
    | .back => back

/-- The event loop over a finite sequence of messages. -/
def Prog.run (lu : ListUpdate) (sub : SubScreens) : Prog → List Msg → Option Prog
  | p, [] => some p
  | p, msg :: rest =>
    match p.step lu sub msg with
    | some p1 => Prog.run lu sub p1 rest
    | none => none

/-- The event loop started by `main`. -/
def runMain (lu : ListUpdate) (sub : SubScreens) (msgs : List Msg) : Option Prog :=
  match main with
  | some p => p.run lu sub msgs
  | none => none

/-- The launch action on the menu: a key message that matches the launch binding
while the list is not in the Filtering state and the cursor is on index 0, 1 or 4. -/
def model.isLaunch (m : model) (msg : Msg) : Prop :=
  ∃ k, msg = .KeyMsg k ∧ m.list.FilterState ≠ .Filtering ∧
    Matches k m.keys.launchItem = true ∧
    (m.list.Index = 0 ∨ m.list.Index = 1 ∨ m.list.Index = 4)

/-- The roster invariant: four entries, the entry under each tag is the screen of
that tag, and `current` is one of the four tags. -/
def RosterInv (g : Globals) : Prop :=
  g.models.length = 4 ∧
  (∃ m, g.models[mainModel]? = some (.menu m)) ∧
  (∃ t, g.models[timerModel]? = some (.timer t)) ∧
  (∃ a, g.models[aboutModel]? = some (.about a)) ∧
  (∃ s, g.models[simpleListModel]? = some (.sublist s)) ∧
  g.current < 4

/-- What holds of the program at every turn of the event loop: the roster has four
entries, `current` is one of the four tags, and whenever the loop holds a menu, the
roster is the one `initMenu` builds and the menu carries the constructed key map.
While another screen is held the roster may hold that screen's later states. -/
def ProgInv (p : Prog) : Prop :=
  p.g.models.length = 4 ∧ p.g.current < 4 ∧
  ∀ m, p.active = .menu m → p.g.models = initMenu ∧ m.keys = newListKeyMap

/-- The menu screen as `initMenu` builds it (its local `mainModel`). -/
def startMenu : model :=
  { list := { (list.Model.New menuItems (newItemDelegate newDelegateKeyMap) 0 0) with
      Title := "Automata" },
    keys := newListKeyMap, delegateKeys := newDelegateKeyMap }

/-- The globals when the event loop starts. -/
def startGlobals : Globals := ⟨mainModel, initMenu⟩

/-- The menu after the filter text "About" has been typed and accepted: the filter
is applied, the only visible entry is "About", and the cursor is on it. -/
def filteredMenu : model :=
  let aboutEntry : item := ⟨"About", "Contact for Help/Support"⟩
  let l : list.Model := startMenu.list
  let l : list.Model := { l with filterState := .FilterApplied }
  let l : list.Model := { l with filteredItems := [aboutEntry] }
  let l : list.Model := { l with index := 0 }
  { startMenu with list := l }

/-- The menu as built, with the cursor moved to index `i`. -/
def menuAt (i : Nat) : model :=
  let l : list.Model := startMenu.list
  let l : list.Model := { l with index := i }
  { startMenu with list := l }

/-- The menu as built, while a filter text is being typed. -/
def filteringMenu : model :=
  let l : list.Model := startMenu.list
  let l : list.Model := { l with filterState := .Filtering }
  let l : list.Model := { l with filteredItems := menuItems }
  { startMenu with list := l }

/-- The list that `Update` hands to the list's own update step: the receiver's list,
resized first when the message is a window size. -/
def model.listForUpdate (m : model) : Msg → list.Model
  | .WindowSizeMsg Width Height =>
    m.list.SetSize (Width - appStyle.GetFrameSize.1) (Height - appStyle.GetFrameSize.2)
  | _ => m.list

/-! ## Key bindings of the constructed key map -/

theorem matches_newBinding (k s h d : String) :
    Matches k (NewBinding s h d) = decide (k = s) := by
  simp [Matches, NewBinding, Binding.Enabled]

theorem matches_launch_iff (k : String) :
    Matches k newListKeyMap.launchItem = true ↔ k = "a" := by
  simp [newListKeyMap, matches_newBinding]

theorem launch_key_no_toggle :
    Matches "a" newListKeyMap.toggleSpinner = false ∧
    Matches "a" newListKeyMap.toggleTitleBar = false ∧
    Matches "a" newListKeyMap.toggleStatusBar = false ∧
    Matches "a" newListKeyMap.togglePagination = false ∧
    Matches "a" newListKeyMap.toggleHelpMenu = false := by
  simp [newListKeyMap, matches_newBinding]

/-- On a menu with the constructed key map that is not filtering, the launch key
reaches the launch case of the switch: the result is decided by the cursor index
alone. -/
theorem update_launch_key (lu : ListUpdate) (g : Globals) (m : model)
    (hkeys : m.keys = newListKeyMap) (hfilter : m.list.FilterState ≠ .Filtering) :
    m.Update lu g (.KeyMsg "a") =
      if m.list.Index = 1 then switchTo g timerModel
      else if m.list.Index = 4 then switchTo g aboutModel
      else if m.list.Index = 0 then switchTo g simpleListModel
      else m.forward lu g (.KeyMsg "a") := by
  obtain ⟨h1, h2, h3, h4, h5⟩ := launch_key_no_toggle
  have h6 : Matches "a" newListKeyMap.launchItem = true := (matches_launch_iff "a").2 rfl
  simp only [model.Update, hkeys, h1, h2, h3, h4, h5, h6, if_neg hfilter]
  simp

theorem switchTo_of_lookup (g : Globals) (t : sessionState) (s : Screen)
    (hs : g.models[t]? = some s) :
    switchTo g t = some ⟨{ g with current := t }, s, s.Init⟩ := by
  simp [switchTo, hs]

theorem lookup_of_length (g : Globals) (t : sessionState) (ht : t < 4)
    (hroster : g.models.length = 4) : ∃ s, g.models[t]? = some s := by
  have hlt : t < g.models.length := by rw [hroster]; exact ht
  exact ⟨g.models[t], List.getElem?_eq_getElem hlt⟩

/-! ## C1 -/

theorem launch_current_by_index (lu : ListUpdate) (g : Globals) (m : model) (k : String)
    (hkeys : m.keys = newListKeyMap)
    (hfilter : m.list.FilterState ≠ .Filtering)
    (hlaunch : Matches k m.keys.launchItem = true)
    (hroster : g.models.length = 4) :
    ∃ r, m.Update lu g (.KeyMsg k) = some r ∧
      r.g.current =
        if m.list.Index = 0 then simpleListModel
        else if m.list.Index = 1 then timerModel
        else if m.list.Index = 4 then aboutModel
        else g.current := by
  rw [hkeys, matches_launch_iff] at hlaunch
  subst hlaunch
  rw [update_launch_key lu g m hkeys hfilter]
  by_cases h1 : m.list.Index = 1
  · obtain ⟨s, hs⟩ := lookup_of_length g timerModel (by decide) hroster
    exact ⟨_, by rw [if_pos h1]; exact switchTo_of_lookup g _ s hs, by simp [h1]⟩
  · by_cases h4 : m.list.Index = 4
    · obtain ⟨s, hs⟩ := lookup_of_length g aboutModel (by decide) hroster
      exact ⟨_, by rw [if_neg h1, if_pos h4]; exact switchTo_of_lookup g _ s hs, by simp [h4]⟩
    · by_cases h0 : m.list.Index = 0
      · obtain ⟨s, hs⟩ := lookup_of_length g simpleListModel (by decide) hroster
        exact ⟨_, by rw [if_neg h1, if_neg h4, if_pos h0]; exact switchTo_of_lookup g _ s hs,
          by simp [h0]⟩
      · exact ⟨_, by rw [if_neg h1, if_neg h4, if_neg h0]; rfl, by simp [h0, h1, h4]⟩

/-- C1: on a menu with the constructed key map whose list is not Filtering, a key
message matching the launch binding makes `Update` return with `current` equal to
simpleListModel at cursor index 0, timerModel at index 1, aboutModel at index 4, and
to its previous value at every other index. -/
theorem launch_sets_current (lu : ListUpdate) (g : Globals) (m : model) (k : String)
    (hkeys : m.keys = newListKeyMap)
    (hfilter : m.list.FilterState ≠ .Filtering)
    (hlaunch : Matches k m.keys.launchItem = true)
    (hroster : g.models.length = 4) :
    ∃ r, m.Update lu g (.KeyMsg k) = some r ∧
      r.g.current =
        if m.list.Index = 0 then simpleListModel
        else if m.list.Index = 1 then timerModel
        else if m.list.Index = 4 then aboutModel
        else g.current :=
  launch_current_by_index lu g m k hkeys hfilter hlaunch hroster

/-! ## C2 -/

theorem forward_eq (lu : ListUpdate) (g : Globals) (m : model) (msg : Msg) :
    m.forward lu g msg =
      some ⟨g, .menu { m with list := (lu msg m.list).1 }, .Batch [(lu msg m.list).2]⟩ := by
  simp [model.forward]

/-- C2: while the list is Filtering, every key message (the launch key included)
is handed to the list: `Update` returns with the globals as they were, the returned
screen is the receiving menu with the list's new state, the command is the batch of
the list's command, and the returned screen does not depend on the roster. -/
theorem filtering_key_is_forwarded (lu : ListUpdate) (g : Globals) (m : model) (k : String)
    (hfilter : m.list.FilterState = .Filtering) :
    m.Update lu g (.KeyMsg k) =
        some ⟨g, .menu { m with list := (lu (.KeyMsg k) m.list).1 },
          .Batch [(lu (.KeyMsg k) m.list).2]⟩ ∧
      ∀ g2 : Globals,
        (m.Update lu g2 (.KeyMsg k)).map Result.screen =
          some (.menu { m with list := (lu (.KeyMsg k) m.list).1 }) := by
  have h : ∀ g1 : Globals, m.Update lu g1 (.KeyMsg k) =
      some ⟨g1, .menu { m with list := (lu (.KeyMsg k) m.list).1 },
        .Batch [(lu (.KeyMsg k) m.list).2]⟩ := by
    intro g1
    simp only [model.Update, if_pos hfilter]
    exact forward_eq lu g1 m _
  exact ⟨h g, fun g2 => by rw [h g2]; rfl⟩

/-! ## C3 -/

/-- C3: when `Update` navigates (launch key, list not Filtering, cursor index 0, 1
or 4, on a menu with the constructed key map), it returns with `current` set to the
target and with exactly the pair of the roster's screen for the target and that
screen's `Init` command; the list's own update has no part in the result. -/
theorem launch_returns_target_init (lu : ListUpdate) (g : Globals) (m : model) (k : String)
    (target : sessionState) (s : Screen)
    (hkeys : m.keys = newListKeyMap)
    (hfilter : m.list.FilterState ≠ .Filtering)
    (hlaunch : Matches k m.keys.launchItem = true)
    (hidx : (m.list.Index = 0 ∧ target = simpleListModel) ∨
      (m.list.Index = 1 ∧ target = timerModel) ∨
      (m.list.Index = 4 ∧ target = aboutModel))
    (hs : g.models[target]? = some s) :
    m.Update lu g (.KeyMsg k) = some ⟨{ g with current := target }, s, s.Init⟩ ∧
      ∀ lu2 : ListUpdate, m.Update lu2 g (.KeyMsg k) = m.Update lu g (.KeyMsg k) := by
  rw [hkeys, matches_launch_iff] at hlaunch
  subst hlaunch
  have h : ∀ lu1 : ListUpdate,
      m.Update lu1 g (.KeyMsg "a") = some ⟨{ g with current := target }, s, s.Init⟩ := by
    intro lu1
    rw [update_launch_key lu1 g m hkeys hfilter]
    rcases hidx with ⟨hi, ht⟩ | ⟨hi, ht⟩ | ⟨hi, ht⟩ <;> subst ht <;>
      simp [hi, switchTo_of_lookup g _ s hs]
  exact ⟨h lu, fun lu2 => by rw [h lu2, h lu]⟩

/-! ## The toggle cases of `Update` -/

theorem update_toggleSpinner (lu : ListUpdate) (g : Globals) (m : model) (k : String)
    (h0 : ¬ m.list.FilterState = .Filtering)
    (h1 : Matches k m.keys.toggleSpinner = true) :
    m.Update lu g (.KeyMsg k) =
      some ⟨g, .menu { m with list := m.list.ToggleSpinner.1 },
        .plain m.list.ToggleSpinner.2⟩ := by
  simp only [model.Update, if_neg h0, if_pos h1]

theorem update_toggleTitleBar (lu : ListUpdate) (g : Globals) (m : model) (k : String)
    (h0 : ¬ m.list.FilterState = .Filtering)
    (h1 : ¬ Matches k m.keys.toggleSpinner = true)
    (h2 : Matches k m.keys.toggleTitleBar = true) :
    m.Update lu g (.KeyMsg k) =
      some ⟨g, .menu { m with list :=
          ((m.list.SetShowTitle (!m.list.ShowTitle)).SetShowFilter
            (!m.list.ShowTitle)).SetFilteringEnabled (!m.list.ShowTitle) },
        .plain .nil⟩ := by
  simp only [model.Update, if_neg h0, if_neg h1, if_pos h2]

theorem update_toggleStatusBar (lu : ListUpdate) (g : Globals) (m : model) (k : String)
    (h0 : ¬ m.list.FilterState = .Filtering)
    (h1 : ¬ Matches k m.keys.toggleSpinner = true)
    (h2 : ¬ Matches k m.keys.toggleTitleBar = true)
    (h3 : Matches k m.keys.toggleStatusBar = true) :
    m.Update lu g (.KeyMsg k) =
      some ⟨g, .menu { m with list := m.list.SetShowStatusBar (!m.list.ShowStatusBar) },
        .plain .nil⟩ := by
  simp only [model.Update, if_neg h0, if_neg h1, if_neg h2, if_pos h3]

theorem update_togglePagination (lu : ListUpdate) (g : Globals) (m : model) (k : String)
    (h0 : ¬ m.list.FilterState = .Filtering)
    (h1 : ¬ Matches k m.keys.toggleSpinner = true)
    (h2 : ¬ Matches k m.keys.toggleTitleBar = true)
    (h3 : ¬ Matches k m.keys.toggleStatusBar = true)
    (h4 : Matches k m.keys.togglePagination = true) :
    m.Update lu g (.KeyMsg k) =
      some ⟨g, .menu { m with list := m.list.SetShowPagination (!m.list.ShowPagination) },
        .plain .nil⟩ := by
  simp only [model.Update, if_neg h0, if_neg h1, if_neg h2, if_neg h3, if_pos h4]

theorem update_toggleHelpMenu (lu : ListUpdate) (g : Globals) (m : model) (k : String)
    (h0 : ¬ m.list.FilterState = .Filtering)
    (h1 : ¬ Matches k m.keys.toggleSpinner = true)
    (h2 : ¬ Matches k m.keys.toggleTitleBar = true)
    (h3 : ¬ Matches k m.keys.toggleStatusBar = true)
    (h4 : ¬ Matches k m.keys.togglePagination = true)
    (h5 : Matches k m.keys.toggleHelpMenu = true) :
    m.Update lu g (.KeyMsg k) =
      some ⟨g, .menu { m with list := m.list.SetShowHelp (!m.list.ShowHelp) },
        .plain .nil⟩ := by
  simp only [model.Update, if_neg h0, if_neg h1, if_neg h2, if_neg h3, if_neg h4, if_pos h5]

/-! ## C10 -/

/-- Every message that is not the launch action leaves the globals as they are and
returns a menu screen with the receiver's key maps. -/
theorem update_of_not_launch (lu : ListUpdate) (g : Globals) (m : model) (msg : Msg)
    (h : ¬ m.isLaunch msg) :
    ∃ m1 c, m.Update lu g msg = some ⟨g, .menu m1, c⟩ ∧
      m1.keys = m.keys ∧ m1.delegateKeys = m.delegateKeys := by
  cases msg with
  | WindowSizeMsg w ht =>
    have hu := forward_eq lu g
      ⟨m.list.SetSize (w - appStyle.GetFrameSize.1) (ht - appStyle.GetFrameSize.2),
        m.keys, m.delegateKeys⟩ (.WindowSizeMsg w ht)
    exact ⟨_, _, hu, rfl, rfl⟩
  | other t =>
    have hu := forward_eq lu g m (.other t)
    exact ⟨_, _, hu, rfl, rfl⟩
  | KeyMsg k =>
    by_cases h0 : m.list.FilterState = .Filtering
    · exact ⟨_, _, (filtering_key_is_forwarded lu g m k h0).1, rfl, rfl⟩
    by_cases h1 : Matches k m.keys.toggleSpinner = true
    · exact ⟨_, _, update_toggleSpinner lu g m k h0 h1, rfl, rfl⟩
    by_cases h2 : Matches k m.keys.toggleTitleBar = true
    · exact ⟨_, _, update_toggleTitleBar lu g m k h0 h1 h2, rfl, rfl⟩
    by_cases h3 : Matches k m.keys.toggleStatusBar = true
    · exact ⟨_, _, update_toggleStatusBar lu g m k h0 h1 h2 h3, rfl, rfl⟩
    by_cases h4 : Matches k m.keys.togglePagination = true
    · exact ⟨_, _, update_togglePagination lu g m k h0 h1 h2 h3 h4, rfl, rfl⟩
    by_cases h5 : Matches k m.keys.toggleHelpMenu = true
    · exact ⟨_, _, update_toggleHelpMenu lu g m k h0 h1 h2 h3 h4 h5, rfl, rfl⟩
    have hu : m.Update lu g (.KeyMsg k) = m.forward lu g (.KeyMsg k) := by
      simp only [model.Update, if_neg h0, if_neg h1, if_neg h2, if_neg h3, if_neg h4, if_neg h5]
      by_cases h6 : Matches k m.keys.launchItem = true
      · have hi : ¬ (m.list.Index = 0 ∨ m.list.Index = 1 ∨ m.list.Index = 4) :=
          fun hi => h ⟨k, rfl, h0, h6, hi⟩
        have hi1 : ¬ m.list.Index = 1 := fun e => hi (Or.inr (Or.inl e))
        have hi4 : ¬ m.list.Index = 4 := fun e => hi (Or.inr (Or.inr e))
        have hi0 : ¬ m.list.Index = 0 := fun e => hi (Or.inl e)
        simp only [if_pos h6, if_neg hi1, if_neg hi4, if_neg hi0]
      · simp only [if_neg h6]
    rw [forward_eq] at hu
    exact ⟨_, _, hu, rfl, rfl⟩

/-- C10: the program starts on the menu (`current` is mainModel and the event loop
is created on `models[mainModel]`, a menu screen); whenever `Update` returns with a
changed `current` or with a screen that is not a menu, the message was a key message
matching the launch binding, the list was not Filtering and the cursor index was 0,
1 or 4; on every other message `Update` returns a menu screen and leaves the
globals, hence the active identity, as they were. -/
theorem transitions_only_from_launch :
    (∃ m0, main = some ⟨⟨mainModel, initMenu⟩, .menu m0⟩ ∧
      initMenu[mainModel]? = some (.menu m0)) ∧
    (∀ (lu : ListUpdate) (g : Globals) (m : model) (msg : Msg) (r : Result),
      m.Update lu g msg = some r →
      (r.g.current ≠ g.current ∨ ∀ m1, r.screen ≠ .menu m1) →
      ∃ k, msg = .KeyMsg k ∧ Matches k m.keys.launchItem = true ∧
        m.list.FilterState ≠ .Filtering ∧
        (m.list.Index = 0 ∨ m.list.Index = 1 ∨ m.list.Index = 4)) ∧
    (∀ (lu : ListUpdate) (g : Globals) (m : model) (msg : Msg),
      ¬ m.isLaunch msg →
      ∃ m1 c, m.Update lu g msg = some ⟨g, .menu m1, c⟩) := by
  refine ⟨⟨_, rfl, rfl⟩, ?_, ?_⟩
  · intro lu g m msg r hr hch
    by_contra hno
    have hnl : ¬ m.isLaunch msg := by
      rintro ⟨k, hk, hf, hm, hi⟩
      exact hno ⟨k, hk, hm, hf, hi⟩
    obtain ⟨m1, c, hu, -, -⟩ := update_of_not_launch lu g m msg hnl
    rw [hu] at hr
    cases hr
    rcases hch with hc | hs
    · exact hc rfl
    · exact hs m1 rfl
  · intro lu g m msg hnl
    obtain ⟨m1, c, hu, -, -⟩ := update_of_not_launch lu g m msg hnl
    exact ⟨m1, c, hu⟩

/-! ## C5 -/

theorem initMenu_eq :
    initMenu = [.menu startMenu, .timer (NewTimer time.Minute), .about {}, .sublist {}] := rfl

theorem mainModel_eq (g : Globals) :
    MainModel g = some ⟨⟨mainModel, initMenu⟩, .menu startMenu, .plain .nil⟩ := by
  simp only [MainModel, switchTo, initMenu_eq, mainModel]
  rfl

/-- C5: whatever `current` and `models` were, `MainModel` returns with `current`
equal to mainModel and `models` equal to the roster `initMenu` builds (four
screens), and its results are the new menu screen, whose list holds the five
entries with the cursor on index 0 and no filter, and that screen's `Init` command,
which is nil. -/
theorem mainModel_reinitializes (g : Globals) :
    MainModel g = some ⟨⟨mainModel, initMenu⟩, .menu startMenu, .plain .nil⟩ ∧
      initMenu.length = 4 ∧
      initMenu[mainModel]? = some (.menu startMenu) ∧
      startMenu.list.Items.map item.Title = ["Item 1", "Item 2", "Item 3", "Item 4", "About"] ∧
      startMenu.list.Index = 0 ∧
      startMenu.list.FilterState = .Unfiltered ∧
      (Screen.menu startMenu).Init = .plain .nil := by
  exact ⟨mainModel_eq g, rfl, rfl, rfl, rfl, rfl, rfl⟩

/-! ## C6 -/

theorem rosterInv_initMenu (c : sessionState) (hc : c < 4) : RosterInv ⟨c, initMenu⟩ :=
  ⟨rfl, ⟨_, rfl⟩, ⟨_, rfl⟩, ⟨_, rfl⟩, ⟨_, rfl⟩, hc⟩

theorem rosterInv_setCurrent (g : Globals) (t : sessionState) (ht : t < 4)
    (h : RosterInv g) : RosterInv { g with current := t } :=
  ⟨h.1, h.2.1, h.2.2.1, h.2.2.2.1, h.2.2.2.2.1, ht⟩

/-- A message either leaves the globals alone and returns a menu with the same key
maps, or it is the launch action and `Update` is a switch to one of the three
targets. -/
theorem update_cases (lu : ListUpdate) (g : Globals) (m : model) (msg : Msg) :
    (∃ m1 c, m.Update lu g msg = some ⟨g, .menu m1, c⟩ ∧
      m1.keys = m.keys ∧ m1.delegateKeys = m.delegateKeys) ∨
    (m.isLaunch msg ∧ ∃ t, (t = timerModel ∨ t = aboutModel ∨ t = simpleListModel) ∧
      m.Update lu g msg = switchTo g t) := by
  by_cases hl : m.isLaunch msg
  · obtain ⟨k, rfl, h0, h6, hi⟩ := hl
    by_cases h1 : Matches k m.keys.toggleSpinner = true
    · exact Or.inl ⟨_, _, update_toggleSpinner lu g m k h0 h1, rfl, rfl⟩
    by_cases h2 : Matches k m.keys.toggleTitleBar = true
    · exact Or.inl ⟨_, _, update_toggleTitleBar lu g m k h0 h1 h2, rfl, rfl⟩
    by_cases h3 : Matches k m.keys.toggleStatusBar = true
    · exact Or.inl ⟨_, _, update_toggleStatusBar lu g m k h0 h1 h2 h3, rfl, rfl⟩
    by_cases h4 : Matches k m.keys.togglePagination = true
    · exact Or.inl ⟨_, _, update_togglePagination lu g m k h0 h1 h2 h3 h4, rfl, rfl⟩
    by_cases h5 : Matches k m.keys.toggleHelpMenu = true
    · exact Or.inl ⟨_, _, update_toggleHelpMenu lu g m k h0 h1 h2 h3 h4 h5, rfl, rfl⟩
    refine Or.inr ⟨⟨k, rfl, h0, h6, hi⟩, ?_⟩
    simp only [model.Update, if_neg h0, if_neg h1, if_neg h2, if_neg h3, if_neg h4, if_neg h5,
      if_pos h6]
    rcases hi with hi | hi | hi
    · exact ⟨simpleListModel, Or.inr (Or.inr rfl), by simp [hi]⟩
    · exact ⟨timerModel, Or.inl rfl, by simp [hi]⟩
    · exact ⟨aboutModel, Or.inr (Or.inl rfl), by simp [hi]⟩
  · exact Or.inl (update_of_not_launch lu g m msg hl)

theorem switchTo_preserves (g : Globals) (t : sessionState) (ht : t < 4) (h : RosterInv g) :
    ∃ r, switchTo g t = some r ∧ RosterInv r.g ∧ r.g.models = g.models ∧ r.g.current = t ∧
      g.models[t]? = some r.screen := by
  obtain ⟨s, hs⟩ := lookup_of_length g t ht h.1
  exact ⟨_, switchTo_of_lookup g t s hs, rosterInv_setCurrent g t ht h, rfl, rfl, hs⟩

theorem update_preserves (lu : ListUpdate) (g : Globals) (m : model) (msg : Msg)
    (h : RosterInv g) :
    ∃ r, m.Update lu g msg = some r ∧ RosterInv r.g ∧ r.g.models = g.models := by
  rcases update_cases lu g m msg with ⟨m1, c, hu, -, -⟩ | ⟨-, t, ht, hu⟩
  · exact ⟨_, hu, h, rfl⟩
  · have ht4 : t < 4 := by
      rcases ht with rfl | rfl | rfl <;> decide
    obtain ⟨r, hr, hinv, hm, -, -⟩ := switchTo_preserves g t ht4 h
    exact ⟨r, hu.trans hr, hinv, hm⟩

/-- C6: the roster `initMenu` builds has exactly four entries, holding the menu,
the Timer, the About and the SubList screen under mainModel, timerModel, aboutModel
and simpleListModel; when the roster invariant holds, `Update` on any menu and any
message returns (no lookup is out of range) and the invariant holds afterwards with
the same roster; `MainModel` always returns and establishes the invariant. -/
theorem roster_invariant :
    (initMenu.length = 4 ∧
      (∃ m, initMenu[mainModel]? = some (.menu m)) ∧
      (∃ t, initMenu[timerModel]? = some (.timer t)) ∧
      (∃ a, initMenu[aboutModel]? = some (.about a)) ∧
      (∃ s, initMenu[simpleListModel]? = some (.sublist s)) ∧
      RosterInv startGlobals) ∧
    (∀ (lu : ListUpdate) (g : Globals) (m : model) (msg : Msg), RosterInv g →
      ∃ r, m.Update lu g msg = some r ∧ RosterInv r.g ∧ r.g.models = g.models) ∧
    (∀ g : Globals, ∃ r, MainModel g = some r ∧ RosterInv r.g) := by
  refine ⟨⟨rfl, ⟨_, rfl⟩, ⟨_, rfl⟩, ⟨_, rfl⟩, ⟨_, rfl⟩, rosterInv_initMenu _ (by decide)⟩,
    update_preserves, ?_⟩
  intro g
  exact ⟨_, mainModel_eq g, rosterInv_initMenu _ (by decide)⟩

/-! ## C9 -/

theorem main_eq : main = some ⟨startGlobals, .menu startMenu⟩ := rfl

theorem progInv_main : ProgInv ⟨startGlobals, .menu startMenu⟩ := by
  refine ⟨rfl, by decide, ?_⟩
  intro m hm
  cases hm
  exact ⟨rfl, rfl⟩

theorem progInv_back (g : Globals) :
    ∃ p1, (MainModel g).map (fun r => (⟨r.g, r.screen⟩ : Prog)) = some p1 ∧ ProgInv p1 := by
  refine ⟨⟨⟨mainModel, initMenu⟩, .menu startMenu⟩, by rw [mainModel_eq]; rfl, rfl, by decide, ?_⟩
  intro m hm
  cases hm
  exact ⟨rfl, rfl⟩

theorem progInv_keep (g : Globals) (s : Screen) (hl : g.models.length = 4)
    (hc : g.current < 4) (hs : ∀ m, s ≠ .menu m) :
    ∃ p1, (storeActive g s).map (fun g1 => (⟨g1, s⟩ : Prog)) = some p1 ∧ ProgInv p1 := by
  have hlt : g.current < g.models.length := by rw [hl]; exact hc
  refine ⟨⟨{ g with models := g.models.set g.current s }, s⟩, ?_, ?_, hc, ?_⟩
  · simp only [storeActive, if_pos hlt, Option.map_some']
  · show (g.models.set g.current s).length = 4
    rw [List.length_set]; exact hl
  · intro m hm
    exact absurd hm (hs m)

theorem target_not_menu (t : sessionState)
    (ht : t = timerModel ∨ t = aboutModel ∨ t = simpleListModel) :
    ∃ s, initMenu[t]? = some s ∧ ∀ m, s ≠ .menu m := by
  rcases ht with rfl | rfl | rfl
  · exact ⟨.timer (NewTimer time.Minute), rfl, fun m h => by cases h⟩
  · exact ⟨.about {}, rfl, fun m h => by cases h⟩
  · exact ⟨.sublist {}, rfl, fun m h => by cases h⟩

theorem progInv_step (lu : ListUpdate) (sub : SubScreens) (p : Prog) (msg : Msg)
    (h : ProgInv p) : ∃ p1, p.step lu sub msg = some p1 ∧ ProgInv p1 := by
  obtain ⟨g, active⟩ := p
  obtain ⟨hl, hc, hk⟩ := h
  cases active with
  | menu m =>
    obtain ⟨hm, hkm⟩ := hk m rfl
    rcases update_cases lu g m msg with ⟨m1, c, hu, hk1, -⟩ | ⟨-, t, ht, hu⟩
    · refine ⟨⟨g, .menu m1⟩, by simp only [Prog.step, hu]; rfl, hl, hc, ?_⟩
      intro m2 h2
      cases h2
      exact ⟨hm, hk1.trans hkm⟩
    · obtain ⟨s, hs, hns⟩ := target_not_menu t ht
      have hs1 : g.models[t]? = some s := by
        have hm1 : g.models = initMenu := hm
        rw [hm1]; exact hs
      have ht4 : t < 4 := by
        rcases ht with rfl | rfl | rfl <;> decide
      refine ⟨⟨{ g with current := t }, s⟩, ?_, hl, ht4, ?_⟩
      · simp only [Prog.step, hu, switchTo_of_lookup g t s hs1]; rfl
      · intro m2 h2
        exact absurd h2 (hns m2)
  | timer t =>
    simp only [Prog.step]
    cases sub.timer t msg with
    | stay t1 c => exact progInv_keep g _ hl hc (fun m2 h2 => by cases h2)
    | back => exact progInv_back g
  | about a =>
    simp only [Prog.step]
    cases sub.about a msg with
    | stay a1 c => exact progInv_keep g _ hl hc (fun m2 h2 => by cases h2)
    | back => exact progInv_back g
  | sublist s =>
    simp only [Prog.step]
    cases sub.sublist s msg with
    | stay s1 c => exact progInv_keep g _ hl hc (fun m2 h2 => by cases h2)
    | back => exact progInv_back g

theorem progInv_run (lu : ListUpdate) (sub : SubScreens) (msgs : List Msg) :
    ∀ p : Prog, ProgInv p → ∃ p1, p.run lu sub msgs = some p1 ∧ ProgInv p1 := by
  induction msgs with
  | nil => exact fun p h => ⟨p, rfl, h⟩
  | cons msg rest ih =>
    intro p h
    obtain ⟨p1, hs, h1⟩ := progInv_step lu sub p msg h
    obtain ⟨p2, hr, h2⟩ := ih p1 h1
    exact ⟨p2, by simp only [Prog.run, hs]; exact hr, h2⟩

/-- The event loop never stops on a lookup out of range, and the invariant holds
after every sequence of messages. -/
theorem runMain_total (lu : ListUpdate) (sub : SubScreens) (msgs : List Msg) :
    ∃ p, runMain lu sub msgs = some p ∧ ProgInv p := by
  obtain ⟨p, hr, hp⟩ := progInv_run lu sub msgs _ progInv_main
  exact ⟨p, by simp only [runMain, main_eq]; exact hr, hp⟩

/-- C9: after any sequence of messages from the start of the program (whatever the
Timer or SubList did while they were active, their later states having been stored
in the roster), when the loop holds the menu, its list is not Filtering and a key
matching the launch binding arrives: at cursor index 1 `Update` returns the Timer
as `NewTimer(time.Minute)` builds it, with its whole 60 seconds remaining, and at
cursor index 0 it returns the SubList value `listitemmodel{}`; the roster is then
the one `initMenu` built, because the way back to the menu rebuilt it. -/
theorem launch_returns_fresh_screen (lu : ListUpdate) (sub : SubScreens) (msgs : List Msg)
    (p : Prog) (m : model) (k : String)
    (hrun : runMain lu sub msgs = some p)
    (hact : p.active = .menu m)
    (hfilter : m.list.FilterState ≠ .Filtering)
    (hlaunch : Matches k m.keys.launchItem = true) :
    (m.list.Index = 1 →
      m.Update lu p.g (.KeyMsg k) =
        some ⟨⟨timerModel, initMenu⟩, .timer (NewTimer time.Minute),
          (NewTimer time.Minute).Init⟩) ∧
    (m.list.Index = 0 →
      m.Update lu p.g (.KeyMsg k) =
        some ⟨⟨simpleListModel, initMenu⟩, .sublist {}, listitemmodel.Init {}⟩) ∧
    (NewTimer time.Minute).remaining = 60 * time.Second ∧
    (NewTimer time.Minute).remaining = (NewTimer time.Minute).timeout := by
  obtain ⟨p1, hp1, -, -, hk⟩ := runMain_total lu sub msgs
  rw [hrun] at hp1
  cases hp1
  obtain ⟨hm, hkeys⟩ := hk m hact
  rw [hkeys, matches_launch_iff] at hlaunch
  subst hlaunch
  obtain ⟨g, active⟩ := p
  have hm1 : g.models = initMenu := hm
  refine ⟨fun h1 => ?_, fun h0 => ?_, rfl, rfl⟩
  · rw [update_launch_key lu g m hkeys hfilter, if_pos h1,
      switchTo_of_lookup g timerModel (.timer (NewTimer time.Minute)) (by rw [hm1]; rfl)]
    simp only [hm1]
    rfl
  · have h1 : ¬ m.list.Index = 1 := by rw [h0]; decide
    have h4 : ¬ m.list.Index = 4 := by rw [h0]; decide
    rw [update_launch_key lu g m hkeys hfilter, if_neg h1, if_neg h4, if_pos h0,
      switchTo_of_lookup g simpleListModel (.sublist {}) (by rw [hm1]; rfl)]
    simp only [hm1]
    rfl

/-! ## C7 -/

/-- The identity that is active after `Update` depends on the menu only through its
key map, on whether its list is Filtering, and on the cursor index. -/
theorem update_current_congr (m1 m : model)
    (hk : m1.keys = m.keys)
    (hf : m1.list.FilterState = .Filtering ↔ m.list.FilterState = .Filtering)
    (hi : m1.list.Index = m.list.Index)
    (lu : ListUpdate) (g : Globals) (msg : Msg) :
    (m1.Update lu g msg).map (fun r => r.g.current) =
      (m.Update lu g msg).map (fun r => r.g.current) := by
  cases msg with
  | WindowSizeMsg w ht => simp only [model.Update, forward_eq, Option.map_some']
  | other t => simp only [model.Update, forward_eq, Option.map_some']
  | KeyMsg k =>
    by_cases h0 : m.list.FilterState = .Filtering
    · have h01 := hf.2 h0
      simp only [model.Update, forward_eq, if_pos h0, if_pos h01, Option.map_some']
    · have h01 : ¬ m1.list.FilterState = .Filtering := fun h => h0 (hf.1 h)
      simp only [model.Update, forward_eq, if_neg h0, if_neg h01, hk, hi]
      by_cases h1 : Matches k m.keys.toggleSpinner = true
      · simp only [if_pos h1, Option.map_some']
      by_cases h2 : Matches k m.keys.toggleTitleBar = true
      · simp only [if_neg h1, if_pos h2, Option.map_some']
      by_cases h3 : Matches k m.keys.toggleStatusBar = true
      · simp only [if_neg h1, if_neg h2, if_pos h3, Option.map_some']
      by_cases h4 : Matches k m.keys.togglePagination = true
      · simp only [if_neg h1, if_neg h2, if_neg h3, if_pos h4, Option.map_some']
      by_cases h5 : Matches k m.keys.toggleHelpMenu = true
      · simp only [if_neg h1, if_neg h2, if_neg h3, if_neg h4, if_pos h5, Option.map_some']
      by_cases h6 : Matches k m.keys.launchItem = true
      · simp only [if_neg h1, if_neg h2, if_neg h3, if_neg h4, if_neg h5, if_pos h6]
        by_cases i1 : m.list.Index = 1
        · simp only [if_pos i1]
        by_cases i4 : m.list.Index = 4
        · simp only [if_neg i1, if_pos i4]
        by_cases i0 : m.list.Index = 0
        · simp only [if_neg i1, if_neg i4, if_pos i0]
        · simp only [if_neg i1, if_neg i4, if_neg i0, Option.map_some']
      · simp only [if_neg h1, if_neg h2, if_neg h3, if_neg h4, if_neg h5, if_neg h6,
          Option.map_some']

/-- The title-bar toggle on the menu as built: filtering was enabled before the
call and is disabled after it. -/
theorem title_toggle_disables_filtering :
    startMenu.list.FilterState ≠ .Filtering ∧
    Matches "T" startMenu.keys.toggleTitleBar = true ∧
    startMenu.list.FilteringEnabled = true ∧
    ∃ m1, startMenu.Update browseUpdate startGlobals (.KeyMsg "T") =
        some ⟨startGlobals, .menu m1, .plain .nil⟩ ∧
      m1.list.FilteringEnabled = false := by
  refine ⟨by decide, by decide, rfl, _, rfl, rfl⟩

/-- C7 (amended): on a menu with the constructed key map whose list is not
Filtering, a key matching one of the five toggle bindings makes `Update` return the
menu with the globals untouched, the same key map, the same entries and the same
cursor index, and a list that is still not Filtering.  For the spinner, status-bar,
pagination and help toggles the filter state and the filtering-enabled flag are
unchanged as well; the title-bar toggle sets the filtering-enabled flag to the new
show-title value and, when that switches filtering off, resets the filter state to
Unfiltered.  The identity that is active after the next message is the same as
without the toggle. -/
theorem toggle_changes_display_only (lu : ListUpdate) (g : Globals) (m : model) (k : String)
    (hkeys : m.keys = newListKeyMap)
    (hfilter : m.list.FilterState ≠ .Filtering)
    (htoggle : Matches k m.keys.toggleSpinner = true ∨ Matches k m.keys.toggleTitleBar = true ∨
      Matches k m.keys.toggleStatusBar = true ∨ Matches k m.keys.togglePagination = true ∨
      Matches k m.keys.toggleHelpMenu = true) :
    ∃ m1 c, m.Update lu g (.KeyMsg k) = some ⟨g, .menu m1, c⟩ ∧
      m1.keys = m.keys ∧
      m1.list.Items = m.list.Items ∧
      m1.list.Index = m.list.Index ∧
      m1.list.FilterState ≠ .Filtering ∧
      (Matches k m.keys.toggleTitleBar = false →
        m1.list.FilterState = m.list.FilterState ∧
        m1.list.FilteringEnabled = m.list.FilteringEnabled) ∧
      (Matches k m.keys.toggleTitleBar = true →
        m1.list.FilteringEnabled = (!m.list.ShowTitle) ∧
        m1.list.FilterState =
          if m.list.ShowTitle = true then .Unfiltered else m.list.FilterState) ∧
      ∀ (lu2 : ListUpdate) (g2 : Globals) (msg2 : Msg),
        (m1.Update lu2 g2 msg2).map (fun r => r.g.current) =
          (m.Update lu2 g2 msg2).map (fun r => r.g.current) := by
  have key : ∀ m1 : model, m1.keys = m.keys → m1.list.Index = m.list.Index →
      m1.list.FilterState ≠ .Filtering →
      ∀ (lu2 : ListUpdate) (g2 : Globals) (msg2 : Msg),
        (m1.Update lu2 g2 msg2).map (fun r => r.g.current) =
          (m.Update lu2 g2 msg2).map (fun r => r.g.current) :=
    fun m1 h1 h2 h3 =>
      update_current_congr m1 m h1 ⟨fun h => absurd h h3, fun h => absurd h hfilter⟩ h2
  simp only [hkeys, newListKeyMap, matches_newBinding, decide_eq_true_eq] at htoggle
  rcases htoggle with rfl | rfl | rfl | rfl | rfl
  · have h1 : Matches "s" m.keys.toggleSpinner = true := by
      rw [hkeys]; decide
    have hT : ¬ Matches "s" m.keys.toggleTitleBar = true := by
      rw [hkeys]; decide
    have hns : (m.list.ToggleSpinner.1).filterState = m.list.filterState := by
      unfold list.Model.ToggleSpinner; split_ifs <;> rfl
    have hni : (m.list.ToggleSpinner.1).index = m.list.index := by
      unfold list.Model.ToggleSpinner; split_ifs <;> rfl
    have hnt : (m.list.ToggleSpinner.1).items = m.list.items := by
      unfold list.Model.ToggleSpinner; split_ifs <;> rfl
    have hne : (m.list.ToggleSpinner.1).filteringEnabled = m.list.filteringEnabled := by
      unfold list.Model.ToggleSpinner; split_ifs <;> rfl
    have hnf : (m.list.ToggleSpinner.1).FilterState ≠ .Filtering := by
      show (m.list.ToggleSpinner.1).filterState ≠ _
      rw [hns]; exact hfilter
    exact ⟨_, _, update_toggleSpinner lu g m "s" hfilter h1, rfl, hnt, hni, hnf,
      fun _ => ⟨hns, hne⟩, fun h => absurd h hT, key _ rfl hni hnf⟩
  · have h1 : ¬ Matches "T" m.keys.toggleSpinner = true := by
      rw [hkeys]; decide
    have h2 : Matches "T" m.keys.toggleTitleBar = true := by
      rw [hkeys]; decide
    have hst : ∀ l : list.Model, l.FilterState ≠ .Filtering → ∀ v : Bool,
        (((l.SetShowTitle v).SetShowFilter v).SetFilteringEnabled v).FilterState =
          (if v = true then l.FilterState else .Unfiltered) ∧
        (((l.SetShowTitle v).SetShowFilter v).SetFilteringEnabled v).FilteringEnabled = v ∧
        (((l.SetShowTitle v).SetShowFilter v).SetFilteringEnabled v).Index = l.Index ∧
        (((l.SetShowTitle v).SetShowFilter v).SetFilteringEnabled v).Items = l.Items := by
      intro l hl v
      cases v
      · simp only [list.Model.SetFilteringEnabled, list.Model.SetShowFilter,
          list.Model.SetShowTitle, list.Model.resetFiltering, list.Model.FilterState,
          list.Model.FilteringEnabled, list.Model.Index, list.Model.Items]
        by_cases hu : l.filterState = .Unfiltered <;> simp [hu]
      · simp [list.Model.SetFilteringEnabled, list.Model.SetShowFilter,
          list.Model.SetShowTitle, list.Model.FilterState,
          list.Model.FilteringEnabled, list.Model.Index, list.Model.Items]
    obtain ⟨hs1, hs2, hs3, hs4⟩ := hst m.list hfilter (!m.list.ShowTitle)
    have hnf : (((m.list.SetShowTitle (!m.list.ShowTitle)).SetShowFilter
        (!m.list.ShowTitle)).SetFilteringEnabled (!m.list.ShowTitle)).FilterState ≠
          .Filtering := by
      rw [hs1]; split_ifs
      · exact hfilter
      · exact fun h => by cases h
    refine ⟨_, _, update_toggleTitleBar lu g m "T" hfilter h1 h2, rfl, hs4, hs3, hnf,
      fun h => absurd h2 (by rw [h]; decide), fun _ => ⟨hs2, ?_⟩, key _ rfl hs3 hnf⟩
    rw [hs1]
    cases m.list.ShowTitle <;> simp
  · have h1 : ¬ Matches "S" m.keys.toggleSpinner = true := by
      rw [hkeys]; decide
    have h2 : ¬ Matches "S" m.keys.toggleTitleBar = true := by
      rw [hkeys]; decide
    have h3 : Matches "S" m.keys.toggleStatusBar = true := by
      rw [hkeys]; decide
    exact ⟨_, _, update_toggleStatusBar lu g m "S" hfilter h1 h2 h3, rfl, rfl, rfl, hfilter,
      fun _ => ⟨rfl, rfl⟩, fun h => absurd h h2, key _ rfl rfl hfilter⟩
  · have h1 : ¬ Matches "P" m.keys.toggleSpinner = true := by
      rw [hkeys]; decide
    have h2 : ¬ Matches "P" m.keys.toggleTitleBar = true := by
      rw [hkeys]; decide
    have h3 : ¬ Matches "P" m.keys.toggleStatusBar = true := by
      rw [hkeys]; decide
    have h4 : Matches "P" m.keys.togglePagination = true := by
      rw [hkeys]; decide
    exact ⟨_, _, update_togglePagination lu g m "P" hfilter h1 h2 h3 h4, rfl, rfl, rfl, hfilter,
      fun _ => ⟨rfl, rfl⟩, fun h => absurd h h2, key _ rfl rfl hfilter⟩
  · have h1 : ¬ Matches "H" m.keys.toggleSpinner = true := by
      rw [hkeys]; decide
    have h2 : ¬ Matches "H" m.keys.toggleTitleBar = true := by
      rw [hkeys]; decide
    have h3 : ¬ Matches "H" m.keys.toggleStatusBar = true := by
      rw [hkeys]; decide
    have h4 : ¬ Matches "H" m.keys.togglePagination = true := by
      rw [hkeys]; decide
    have h5 : Matches "H" m.keys.toggleHelpMenu = true := by
      rw [hkeys]; decide
    exact ⟨_, _, update_toggleHelpMenu lu g m "H" hfilter h1 h2 h3 h4 h5, rfl, rfl, rfl,
      hfilter, fun _ => ⟨rfl, rfl⟩, fun h => absurd h h2, key _ rfl rfl hfilter⟩

/-- Beyond the next message the toggle can matter: with the filter "About" applied,
the down key and then the launch key activate the SubList, but after the title-bar
toggle (which resets the filter) the same two keys activate the Timer. -/
theorem title_toggle_changes_later_launch :
    (∃ m1 c1 r,
      filteredMenu.Update browseUpdate startGlobals (.KeyMsg "down") =
        some ⟨startGlobals, .menu m1, c1⟩ ∧
      m1.Update browseUpdate startGlobals (.KeyMsg "a") = some r ∧
      r.g.current = simpleListModel) ∧
    (∃ m0 c0 m1 c1 r,
      filteredMenu.Update browseUpdate startGlobals (.KeyMsg "T") =
        some ⟨startGlobals, .menu m0, c0⟩ ∧
      m0.Update browseUpdate startGlobals (.KeyMsg "down") =
        some ⟨startGlobals, .menu m1, c1⟩ ∧
      m1.Update browseUpdate startGlobals (.KeyMsg "a") = some r ∧
      r.g.current = timerModel) :=
  ⟨⟨_, _, _, rfl, rfl, rfl⟩, ⟨_, _, _, _, _, rfl, rfl, rfl, rfl⟩⟩

/-! ## C8 -/

/-- With the filter "About" applied the selected entry is "About", the launch key
is not blocked, and the launch activates the SubList, not the About screen. -/
theorem filtered_about_launches_sublist :
    filteredMenu.list.FilterState = .FilterApplied ∧
    filteredMenu.list.Items = menuItems ∧
    filteredMenu.list.SelectedItem = some ⟨"About", "Contact for Help/Support"⟩ ∧
    Matches "a" filteredMenu.keys.launchItem = true ∧
    filteredMenu.Update browseUpdate startGlobals (.KeyMsg "a") =
      some ⟨⟨simpleListModel, initMenu⟩, .sublist {}, .plain .nil⟩ ∧
    simpleListModel ≠ aboutModel := by
  refine ⟨rfl, rfl, rfl, by decide, ?_, by decide⟩
  rw [update_launch_key browseUpdate startGlobals filteredMenu rfl (by decide)]
  rfl

theorem selected_of_unfiltered (l : list.Model) (it : item)
    (hu : l.FilterState = .Unfiltered) (hitems : l.Items = menuItems)
    (hsel : l.SelectedItem = some it) :
    (l.Index = 0 ∧ it.Title = "Item 1") ∨ (l.Index = 1 ∧ it.Title = "Item 2") ∨
    (l.Index = 2 ∧ it.Title = "Item 3") ∨ (l.Index = 3 ∧ it.Title = "Item 4") ∨
    (l.Index = 4 ∧ it.Title = "About") := by
  have hu1 : l.filterState = .Unfiltered := hu
  have hi1 : l.items = menuItems := hitems
  simp only [list.Model.SelectedItem, list.Model.VisibleItems, if_pos hu1, hi1] at hsel
  generalize l.Index = i at hsel ⊢
  match i, hsel with
  | 0, h => cases h; exact Or.inl ⟨rfl, rfl⟩
  | 1, h => cases h; exact Or.inr (Or.inl ⟨rfl, rfl⟩)
  | 2, h => cases h; exact Or.inr (Or.inr (Or.inl ⟨rfl, rfl⟩))
  | 3, h => cases h; exact Or.inr (Or.inr (Or.inr (Or.inl ⟨rfl, rfl⟩)))
  | 4, h => cases h; exact Or.inr (Or.inr (Or.inr (Or.inr ⟨rfl, rfl⟩)))
  | n + 5, h => simp [menuItems] at h

/-- C8 (amended): on a menu with the constructed key map whose list is not
Filtering, the launch key makes `Update` return with `current` decided by the
cursor index, the position of the selected entry among the visible entries
(0 gives simpleListModel, 1 timerModel, 4 aboutModel, any other index leaves it
unchanged).  When moreover no filter is applied and the list holds the constructed
entries, the selected entry decides it by its title: "Item 1" gives
simpleListModel, "Item 2" timerModel, "About" aboutModel, "Item 3" and "Item 4"
leave `current` unchanged. -/
theorem launch_target_by_position (lu : ListUpdate) (g : Globals) (m : model) (k : String)
    (hkeys : m.keys = newListKeyMap)
    (hfilter : m.list.FilterState ≠ .Filtering)
    (hlaunch : Matches k m.keys.launchItem = true)
    (hroster : g.models.length = 4) :
    ∃ r, m.Update lu g (.KeyMsg k) = some r ∧
      m.list.SelectedItem = m.list.VisibleItems[m.list.Index]? ∧
      (r.g.current =
        if m.list.Index = 0 then simpleListModel
        else if m.list.Index = 1 then timerModel
        else if m.list.Index = 4 then aboutModel
        else g.current) ∧
      (m.list.FilterState = .Unfiltered → m.list.Items = menuItems →
        ∀ it, m.list.SelectedItem = some it →
          r.g.current =
            if it.Title = "Item 1" then simpleListModel
            else if it.Title = "Item 2" then timerModel
            else if it.Title = "About" then aboutModel
            else g.current) := by
  obtain ⟨r, hr, hc⟩ := launch_current_by_index lu g m k hkeys hfilter hlaunch hroster
  refine ⟨r, hr, rfl, hc, ?_⟩
  intro hu hitems it hsel
  rw [hc]
  rcases selected_of_unfiltered m.list it hu hitems hsel with
    ⟨hi, ht⟩ | ⟨hi, ht⟩ | ⟨hi, ht⟩ | ⟨hi, ht⟩ | ⟨hi, ht⟩ <;> rw [hi, ht] <;> simp

/-! ## C4 -/

/-- A window-size message and the status-bar toggle on the menu as built: neither
navigates (`current` is unchanged and a menu is returned), and after the call the
roster's entry for the menu is not the returned screen. -/
theorem update_does_not_store :
    (∃ r, startMenu.Update browseUpdate startGlobals (.WindowSizeMsg 80 24) = some r ∧
      r.g.current = startGlobals.current ∧ (∃ m1, r.screen = .menu m1) ∧
      r.g.models[mainModel]? ≠ some r.screen) ∧
    (∃ r, startMenu.Update browseUpdate startGlobals (.KeyMsg "S") = some r ∧
      r.g.current = startGlobals.current ∧ (∃ m1, r.screen = .menu m1) ∧
      r.g.models[mainModel]? ≠ some r.screen) := by
  refine ⟨⟨_, rfl, rfl, ⟨_, rfl⟩, ?_⟩, ⟨_, rfl, rfl, ⟨_, rfl⟩, ?_⟩⟩
  · decide
  · decide

/-- C4 (amended): on every message that is not the launch action, `Update` returns
the updated menu screen to its caller and stores nothing: `current` and the roster
`models` are after the call what they were before.  When the message reaches the
list's own update (every message other than a key, every key while Filtering, and
every key that matches none of the toggle bindings), the returned menu holds the
list that update returned and the returned command is the batch of exactly the
list's command. -/
theorem nonlaunch_returns_menu_unstored (lu : ListUpdate) (g : Globals) (m : model)
    (msg : Msg) (h : ¬ m.isLaunch msg) :
    ∃ m1 c, m.Update lu g msg = some ⟨g, .menu m1, c⟩ ∧
      m1.keys = m.keys ∧ m1.delegateKeys = m.delegateKeys ∧
      ((∀ k, msg = .KeyMsg k → m.list.FilterState = .Filtering ∨
          (Matches k m.keys.toggleSpinner = false ∧ Matches k m.keys.toggleTitleBar = false ∧
            Matches k m.keys.toggleStatusBar = false ∧
            Matches k m.keys.togglePagination = false ∧
            Matches k m.keys.toggleHelpMenu = false)) →
        m1.list = (lu msg (m.listForUpdate msg)).1 ∧
        c = .Batch [(lu msg (m.listForUpdate msg)).2]) := by
  cases msg with
  | WindowSizeMsg w ht =>
    have hu := forward_eq lu g
      ⟨m.list.SetSize (w - appStyle.GetFrameSize.1) (ht - appStyle.GetFrameSize.2),
        m.keys, m.delegateKeys⟩ (.WindowSizeMsg w ht)
    exact ⟨_, _, hu, rfl, rfl, fun _ => ⟨rfl, rfl⟩⟩
  | other t =>
    have hu := forward_eq lu g m (.other t)
    exact ⟨_, _, hu, rfl, rfl, fun _ => ⟨rfl, rfl⟩⟩
  | KeyMsg k =>
    by_cases h0 : m.list.FilterState = .Filtering
    · have hu : m.Update lu g (.KeyMsg k) = m.forward lu g (.KeyMsg k) := by
        simp only [model.Update, if_pos h0]
      rw [forward_eq] at hu
      exact ⟨_, _, hu, rfl, rfl, fun _ => ⟨rfl, rfl⟩⟩
    by_cases h1 : Matches k m.keys.toggleSpinner = true
    · exact ⟨_, _, update_toggleSpinner lu g m k h0 h1, rfl, rfl, fun hf => by
        rcases hf k rfl with hf | hf
        · exact absurd hf h0
        · rw [hf.1] at h1; cases h1⟩
    by_cases h2 : Matches k m.keys.toggleTitleBar = true
    · exact ⟨_, _, update_toggleTitleBar lu g m k h0 h1 h2, rfl, rfl, fun hf => by
        rcases hf k rfl with hf | hf
        · exact absurd hf h0
        · rw [hf.2.1] at h2; cases h2⟩
    by_cases h3 : Matches k m.keys.toggleStatusBar = true
    · exact ⟨_, _, update_toggleStatusBar lu g m k h0 h1 h2 h3, rfl, rfl, fun hf => by
        rcases hf k rfl with hf | hf
        · exact absurd hf h0
        · rw [hf.2.2.1] at h3; cases h3⟩
    by_cases h4 : Matches k m.keys.togglePagination = true
    · exact ⟨_, _, update_togglePagination lu g m k h0 h1 h2 h3 h4, rfl, rfl, fun hf => by
        rcases hf k rfl with hf | hf
        · exact absurd hf h0
        · rw [hf.2.2.2.1] at h4; cases h4⟩
    by_cases h5 : Matches k m.keys.toggleHelpMenu = true
    · exact ⟨_, _, update_toggleHelpMenu lu g m k h0 h1 h2 h3 h4 h5, rfl, rfl, fun hf => by
        rcases hf k rfl with hf | hf
        · exact absurd hf h0
        · rw [hf.2.2.2.2] at h5; cases h5⟩
    have hu : m.Update lu g (.KeyMsg k) = m.forward lu g (.KeyMsg k) := by
      simp only [model.Update, if_neg h0, if_neg h1, if_neg h2, if_neg h3, if_neg h4, if_neg h5]
      by_cases h6 : Matches k m.keys.launchItem = true
      · have hi : ¬ (m.list.Index = 0 ∨ m.list.Index = 1 ∨ m.list.Index = 4) :=
          fun hi => h ⟨k, rfl, h0, h6, hi⟩
        have hi1 : ¬ m.list.Index = 1 := fun e => hi (Or.inr (Or.inl e))
        have hi4 : ¬ m.list.Index = 4 := fun e => hi (Or.inr (Or.inr e))
        have hi0 : ¬ m.list.Index = 0 := fun e => hi (Or.inl e)
        simp only [if_pos h6, if_neg hi1, if_neg hi4, if_neg hi0]
      · simp only [if_neg h6]
    rw [forward_eq] at hu
    exact ⟨_, _, hu, rfl, rfl, fun _ => ⟨rfl, rfl⟩⟩

/-! ## Concrete instances -/

/-- The menu as built with the cursor on index 1: the launch key makes the Timer
current. -/
theorem launch_sets_current_witness :
    ∃ r, (menuAt 1).Update browseUpdate startGlobals (.KeyMsg "a") = some r ∧
      r.g.current =
        if (menuAt 1).list.Index = 0 then simpleListModel
        else if (menuAt 1).list.Index = 1 then timerModel
        else if (menuAt 1).list.Index = 4 then aboutModel
        else startGlobals.current :=
  launch_sets_current browseUpdate startGlobals (menuAt 1) "a" rfl (by decide) (by decide) rfl

/-- The launch key while a filter is being typed goes to the list. -/
theorem filtering_key_is_forwarded_witness :
    filteringMenu.list.FilterState = .Filtering ∧
    (filteringMenu.Update browseUpdate startGlobals (.KeyMsg "a") =
        some ⟨startGlobals,
          .menu { filteringMenu with
            list := (browseUpdate (.KeyMsg "a") filteringMenu.list).1 },
          .Batch [(browseUpdate (.KeyMsg "a") filteringMenu.list).2]⟩ ∧
      ∀ g2 : Globals,
        (filteringMenu.Update browseUpdate g2 (.KeyMsg "a")).map Result.screen =
          some (.menu { filteringMenu with
            list := (browseUpdate (.KeyMsg "a") filteringMenu.list).1 })) :=
  ⟨rfl, filtering_key_is_forwarded browseUpdate startGlobals filteringMenu "a" rfl⟩

/-- The launch key with the cursor on index 4 returns the About screen of the
roster and its `Init` command. -/
theorem launch_returns_target_init_witness :
    (menuAt 4).Update browseUpdate startGlobals (.KeyMsg "a") =
        some ⟨{ startGlobals with current := aboutModel }, .about {}, (Screen.about {}).Init⟩ ∧
      ∀ lu2 : ListUpdate, (menuAt 4).Update lu2 startGlobals (.KeyMsg "a") =
        (menuAt 4).Update browseUpdate startGlobals (.KeyMsg "a") :=
  launch_returns_target_init browseUpdate startGlobals (menuAt 4) "a" aboutModel (.about {})
    rfl (by decide) (by decide) (Or.inr (Or.inr ⟨rfl, rfl⟩)) rfl

/-- The down key on the menu as built: a menu is returned and the globals stay. -/
theorem nonlaunch_returns_menu_unstored_witness :
    ∃ m1 c, startMenu.Update browseUpdate startGlobals (.KeyMsg "down") =
        some ⟨startGlobals, .menu m1, c⟩ ∧
      m1.keys = startMenu.keys ∧ m1.delegateKeys = startMenu.delegateKeys ∧
      ((∀ k, Msg.KeyMsg "down" = .KeyMsg k → startMenu.list.FilterState = .Filtering ∨
          (Matches k startMenu.keys.toggleSpinner = false ∧
            Matches k startMenu.keys.toggleTitleBar = false ∧
            Matches k startMenu.keys.toggleStatusBar = false ∧
            Matches k startMenu.keys.togglePagination = false ∧
            Matches k startMenu.keys.toggleHelpMenu = false)) →
        m1.list = (browseUpdate (.KeyMsg "down")
          (startMenu.listForUpdate (.KeyMsg "down"))).1 ∧
        c = .Batch [(browseUpdate (.KeyMsg "down")
          (startMenu.listForUpdate (.KeyMsg "down"))).2]) :=
  nonlaunch_returns_menu_unstored browseUpdate startGlobals startMenu (.KeyMsg "down")
    (by
      rintro ⟨k, hk, -, hm, -⟩
      cases hk
      revert hm
      decide)

/-- The launch key at index 1 from the start globals returns and keeps the
invariant. -/
theorem roster_invariant_witness :
    RosterInv startGlobals ∧
    ∃ r, (menuAt 1).Update browseUpdate startGlobals (.KeyMsg "a") = some r ∧
      RosterInv r.g ∧ r.g.models = startGlobals.models :=
  ⟨roster_invariant.1.2.2.2.2.2,
    roster_invariant.2.1 browseUpdate startGlobals (menuAt 1) (.KeyMsg "a")
      roster_invariant.1.2.2.2.2.2⟩

/-- The title-bar toggle on the menu as built. -/
theorem toggle_changes_display_only_witness :
    ∃ m1 c, startMenu.Update browseUpdate startGlobals (.KeyMsg "T") =
        some ⟨startGlobals, .menu m1, c⟩ ∧
      m1.keys = startMenu.keys ∧
      m1.list.Items = startMenu.list.Items ∧
      m1.list.Index = startMenu.list.Index ∧
      m1.list.FilterState ≠ .Filtering ∧
      (Matches "T" startMenu.keys.toggleTitleBar = false →
        m1.list.FilterState = startMenu.list.FilterState ∧
        m1.list.FilteringEnabled = startMenu.list.FilteringEnabled) ∧
      (Matches "T" startMenu.keys.toggleTitleBar = true →
        m1.list.FilteringEnabled = (!startMenu.list.ShowTitle) ∧
        m1.list.FilterState =
          if startMenu.list.ShowTitle = true then .Unfiltered
          else startMenu.list.FilterState) ∧
      ∀ (lu2 : ListUpdate) (g2 : Globals) (msg2 : Msg),
        (m1.Update lu2 g2 msg2).map (fun r => r.g.current) =
          (startMenu.Update lu2 g2 msg2).map (fun r => r.g.current) :=
  toggle_changes_display_only browseUpdate startGlobals startMenu "T" rfl (by decide)
    (Or.inr (Or.inl (by decide)))

/-- The launch key with the cursor on "About" in the unfiltered menu. -/
theorem launch_target_by_position_witness :
    ∃ r, (menuAt 4).Update browseUpdate startGlobals (.KeyMsg "a") = some r ∧
      (menuAt 4).list.SelectedItem = (menuAt 4).list.VisibleItems[(menuAt 4).list.Index]? ∧
      (r.g.current =
        if (menuAt 4).list.Index = 0 then simpleListModel
        else if (menuAt 4).list.Index = 1 then timerModel
        else if (menuAt 4).list.Index = 4 then aboutModel
        else startGlobals.current) ∧
      ((menuAt 4).list.FilterState = .Unfiltered → (menuAt 4).list.Items = menuItems →
        ∀ it, (menuAt 4).list.SelectedItem = some it →
          r.g.current =
            if it.Title = "Item 1" then simpleListModel
            else if it.Title = "Item 2" then timerModel
            else if it.Title = "About" then aboutModel
            else startGlobals.current) :=
  launch_target_by_position browseUpdate startGlobals (menuAt 4) "a" rfl (by decide)
    (by decide) rfl

/-- A run in which the Timer is launched, ticks twice (the roster then holds the
Timer with 58 seconds) and is left again; the next launch at index 1 returns the
Timer with its whole minute.  Likewise the SubList's moved cursor is stored while it
is active. -/
theorem launch_returns_fresh_screen_witness :
    runMain browseUpdate specScreens [.KeyMsg "down", .KeyMsg "a", .other 0, .other 0] =
      some ⟨⟨timerModel, [.menu startMenu, .timer ⟨time.Minute, 58 * time.Second⟩,
          .about {}, .sublist {}]⟩,
        .timer ⟨time.Minute, 58 * time.Second⟩⟩ ∧
    runMain browseUpdate specScreens [.KeyMsg "a", .KeyMsg "down"] =
      some ⟨⟨simpleListModel, [.menu startMenu, .timer (NewTimer time.Minute),
          .about {}, .sublist ⟨1, false⟩]⟩,
        .sublist ⟨1, false⟩⟩ ∧
    runMain browseUpdate specScreens
        [.KeyMsg "down", .KeyMsg "a", .other 0, .other 0, .KeyMsg "esc", .KeyMsg "down"] =
      some ⟨startGlobals, .menu (menuAt 1)⟩ ∧
    (((menuAt 1).list.Index = 1 →
      (menuAt 1).Update browseUpdate startGlobals (.KeyMsg "a") =
        some ⟨⟨timerModel, initMenu⟩, .timer (NewTimer time.Minute),
          (NewTimer time.Minute).Init⟩) ∧
    ((menuAt 1).list.Index = 0 →
      (menuAt 1).Update browseUpdate startGlobals (.KeyMsg "a") =
        some ⟨⟨simpleListModel, initMenu⟩, .sublist {}, listitemmodel.Init {}⟩) ∧
    (NewTimer time.Minute).remaining = 60 * time.Second ∧
    (NewTimer time.Minute).remaining = (NewTimer time.Minute).timeout) :=
  ⟨by decide, by decide, by decide,
    launch_returns_fresh_screen browseUpdate specScreens
      [.KeyMsg "down", .KeyMsg "a", .other 0, .other 0, .KeyMsg "esc", .KeyMsg "down"]
      ⟨startGlobals, .menu (menuAt 1)⟩ (menuAt 1) "a" (by decide) rfl (by decide) (by decide)⟩

/-- The down key on the menu as built is not the launch action: the menu stays. -/
theorem transitions_only_from_launch_witness :
    ∃ m1 c, startMenu.Update browseUpdate startGlobals (.KeyMsg "down") =
      some ⟨startGlobals, .menu m1, c⟩ :=
  transitions_only_from_launch.2.2 browseUpdate startGlobals startMenu (.KeyMsg "down")
    (by
      rintro ⟨k, hk, -, hm, -⟩
      cases hk
      revert hm
      decide)

end BubbleTeaMenu
